import Mathlib

/-!
Shallow embedding of the therami pipeline (src/therami/data.py,
src/therami/exporter.py, src/therami/plotter.py).

Modelling conventions:
* pandas tables become lists of row records; the numeric columns become ℚ
  (floating point is idealised as exact rationals, and the float square root
  used for standard deviations is an abstract parameter `NumEnv.sqrt`);
* millisecond unix timestamps become ℤ;
* filesystem and time-parsing effects of the loader are abstracted into a
  `LoaderEnv` record of functions, and exceptions become `Except` values;
* Python dicts become insertion-ordered association lists, looked up with
  `alookup`, which mirrors dict indexing on the success path;
* `df.round(n)` is modelled as exact half-to-even rounding to n decimals.
-/

namespace Therami

/-! ### Descriptor model: `Side` and `ActivityType` (data.py lines 15-82) -/

inductive Side where
  | LEFT
  | RIGHT
  | HEMISIDE
  | HEALTHY
deriving DecidableEq, Repr

def Side.value : Side → String
  | .LEFT => "L"
  | .RIGHT => "R"
  | .HEMISIDE => "Hemiside"
  | .HEALTHY => "Healthy"

/-- Iteration order of `for side in Side` in Python: declaration order. -/
def Side.all : List Side := [.LEFT, .RIGHT, .HEMISIDE, .HEALTHY]

def Side.sided_names : List Side := [.LEFT, .RIGHT]

def Side.condition_names : List Side := [.HEMISIDE, .HEALTHY]

def Side.graph_name : Side → String
  | .LEFT => "Left"
  | .RIGHT => "Right"
  | .HEMISIDE => "Hemiside"
  | .HEALTHY => "Healthy"

inductive ActivityType where
  | AVG
  | TRADITIONAL
deriving DecidableEq, Repr

def ActivityType.value : ActivityType → String
  | .AVG => "AVG"
  | .TRADITIONAL => "Trad"

def ActivityType.all : List ActivityType := [.AVG, .TRADITIONAL]

def ActivityType.graph_name : ActivityType → String
  | .AVG => "AVG"
  | .TRADITIONAL => "Traditionnel"

/-- Error taxonomy of the loader (each raise site in data.py). -/
inductive LoadError where
  | unknownCode
  | invalidHemiside
  | schemaMismatch
  | dataFolderNotFound
  | invalidTimestamp
  | noMatchingFile
  | ambiguousFile
deriving DecidableEq, Repr

/-- `ActivityType.from_string`: first enum member whose wire code matches. -/
def ActivityType.from_string (label : String) : Except LoadError ActivityType :=
  match ActivityType.all.find? (fun t => t.value == label) with
  | some t => .ok t
  | none => .error .unknownCode

/-! ### Windowed dataset: `Data` (data.py lines 103-123) -/

structure AcRow where
  timestamp_unix : Int
  activity_counts : ℚ
deriving DecidableEq, Repr

structure PrRow where
  timestamp_unix : Int
  pulse_rate_bpm : ℚ
deriving DecidableEq, Repr

/-- Per-row value of the mask built in `Data.__init__`: the initial series is
`timestamp_unix < 0` and each window ORs in `start ≤ ts ∧ ts ≤ end`. -/
def rowSelected (timings : List (Int × Int)) (ts : Int) : Bool :=
  timings.foldl (fun m t => m || (decide (t.1 ≤ ts) && decide (ts ≤ t.2)))
    (decide (ts < 0))

def computeMask (rows : List AcRow) (timings : List (Int × Int)) : List Bool :=
  rows.map (fun r => rowSelected timings r.timestamp_unix)

/-- The property the spec intends for a row: its timestamp lies in at least
one closed window. -/
def inAnyWindow (timings : List (Int × Int)) (ts : Int) : Prop :=
  ∃ t ∈ timings, t.1 ≤ ts ∧ ts ≤ t.2

instance (timings : List (Int × Int)) (ts : Int) : Decidable (inAnyWindow timings ts) := by
  unfold inAnyWindow
  infer_instance

structure Data where
  raw_activity_counts : List AcRow
  raw_pulse_rate : List PrRow
  mask : List Bool
deriving DecidableEq, Repr

/-- `df.loc[mask, cols]`: keep the rows whose mask entry is true (the two raw
tables share the one mask positionally, as both frames carry the default
range index). -/
def applyMask {α : Type} (rows : List α) (mask : List Bool) : List α :=
  ((rows.zip mask).filter (fun p => p.2)).map Prod.fst

def Data.activity_counts (d : Data) : List AcRow :=
  applyMask d.raw_activity_counts d.mask

def Data.pulse_rate (d : Data) : List PrRow :=
  applyMask d.raw_pulse_rate d.mask

/-- `Data.__init__` after the two CSVs have been read: store the raw tables
and derive the mask from the activity-counts timestamps. -/
def Data.build (ac : List AcRow) (pr : List PrRow) (timings : List (Int × Int)) : Data :=
  { raw_activity_counts := ac, raw_pulse_rate := pr, mask := computeMask ac timings }

/-! ### Dataset collection: `TheramiData` (data.py lines 126-280) -/

abbrev TypeMap := List (ActivityType × Data)

instance : DecidableEq TypeMap := inferInstance

abbrev ActMap := List (String × TypeMap)

instance : DecidableEq ActMap := inferInstance

abbrev SideMap := List (Side × ActMap)

instance : DecidableEq SideMap := inferInstance

structure TheramiData where
  data : List (String × SideMap)
deriving DecidableEq, Repr

/-- Ordered-dict lookup; `none` stands for the key-lookup failure that dict
indexing raises. -/
def alookup {α β : Type} [DecidableEq α] : List (α × β) → α → Option β
  | [], _ => none
  | (k, v) :: rest, x => if x = k then some v else alookup rest x

def TheramiData.subjects (d : TheramiData) : List String :=
  d.data.map Prod.fst

/-- Canonical sides: the first subject's keys. -/
def TheramiData.sides (d : TheramiData) : List Side :=
  ((d.data.head?).map (fun p => p.2.map Prod.fst)).getD []

def TheramiData.activities (d : TheramiData) : List String :=
  (((d.data.head?).bind (fun p => p.2.head?)).map (fun q => q.2.map Prod.fst)).getD []

def TheramiData.activity_types (d : TheramiData) : List ActivityType :=
  ((((d.data.head?).bind (fun p => p.2.head?)).bind (fun q => q.2.head?)).map
    (fun r => r.2.map Prod.fst)).getD []

def TheramiData.get (d : TheramiData) (subject : String) (side : Side)
    (activity : String) (activity_type : ActivityType) : Option Data :=
  (alookup d.data subject).bind fun sm =>
    (alookup sm side).bind fun am =>
      (alookup am activity).bind fun tm => alookup tm activity_type

/-- `TheramiData.filter`: each omitted axis keeps the canonical full set; the
new nested mapping references the very same `Data` values. A requested axis
value that is absent is skipped here, where the source raises a key error;
the claims below only exercise axis values present in the collection. -/
def TheramiData.filter (d : TheramiData) (subjects : Option (List String))
    (sides : Option (List Side)) (activities : Option (List String))
    (activity_types : Option (List ActivityType)) : TheramiData :=
  let subs := subjects.getD d.subjects
  let sds := sides.getD d.sides
  let acts := activities.getD d.activities
  let atys := activity_types.getD d.activity_types
  ⟨subs.filterMap fun s => (alookup d.data s).map fun sm =>
    (s, sds.filterMap fun sd => (alookup sm sd).map fun am =>
      (sd, acts.filterMap fun a => (alookup am a).map fun tm =>
        (a, atys.filterMap fun t => (alookup tm t).map fun v => (t, v))))⟩

structure Keys where
  subject : String
  side : Side
  activity : String
  activity_type : ActivityType
deriving DecidableEq, Repr

/-- `TheramiData.__iter__`: the full cartesian product of the canonical axes,
subject-major, then side, activity, activity type. -/
def TheramiData.iterKeys (d : TheramiData) : List Keys :=
  d.subjects.flatMap fun s => d.sides.flatMap fun sd =>
    d.activities.flatMap fun a => d.activity_types.map fun t => ⟨s, sd, a, t⟩

/-- The uniform-schema invariant of a collection (spec section 3): every
subject exposes the canonical side list, below that the canonical activity
list, below that the canonical activity-type list; keys are dict keys, hence
duplicate-free. -/
def uniformSchema (d : TheramiData) : Bool :=
  decide d.subjects.Nodup && decide d.sides.Nodup && decide d.activities.Nodup &&
  decide d.activity_types.Nodup &&
  d.data.all fun p =>
    decide (p.2.map Prod.fst = d.sides) &&
    p.2.all fun q =>
      decide (q.2.map Prod.fst = d.activities) &&
      q.2.all fun r => decide (r.2.map Prod.fst = d.activity_types)

/-! ### Session loader: `TheramiData.from_json` (data.py lines 130-202).

File reads, calendar-time parsing and directory probing are abstracted as a
`LoaderEnv`; the validation and control flow is translated directly. -/

/-- Code-point comparison of strings, the order Python `sorted` uses. -/
def charListLe : List Char → List Char → Bool
  | [], _ => true
  | _ :: _, [] => false
  | c :: cs, d :: ds =>
    if c.toNat < d.toNat then true
    else if d.toNat < c.toNat then false
    else charListLe cs ds

def strLe (a b : String) : Bool := charListLe a.data b.data

def insertStr (x : String) : List String → List String
  | [] => [x]
  | y :: r => if strLe x y then x :: y :: r else y :: insertStr x r

/-- `sorted(...)` on a list of strings. -/
def sortStr : List String → List String
  | [] => []
  | x :: r => insertStr x (sortStr r)

structure ActivityMeta where
  data_folder : String
  data : List (String × String)
deriving DecidableEq, Repr

structure SubjectManifest where
  hemiside : String
  activities : List (String × List (String × ActivityMeta))
deriving DecidableEq, Repr

abbrev Manifest := List (String × SubjectManifest)

/-- External capabilities the loader consumes: directory existence, the
`glob` of each CSV pattern in a folder (already parsed), and
`pd.to_datetime(s).value // 10**6` as a partial String → ℤ map. -/
structure LoaderEnv where
  folderExists : String → Bool
  parseTime : String → Option Int
  acFiles : String → List (List AcRow)
  prFiles : String → List (List PrRow)

/-- `_read_file` for the activity-counts pattern: exactly one glob match. -/
def read_ac_file (env : LoaderEnv) (folder : String) : Except LoadError (List AcRow) :=
  match env.acFiles folder with
  | [] => .error .noMatchingFile
  | [t] => .ok t
  | _ :: _ :: _ => .error .ambiguousFile

/-- `_read_file` for the pulse-rate pattern. -/
def read_pr_file (env : LoaderEnv) (folder : String) : Except LoadError (List PrRow) :=
  match env.prFiles folder with
  | [] => .error .noMatchingFile
  | [t] => .ok t
  | _ :: _ :: _ => .error .ambiguousFile

/-- `Data.__init__`: read both CSVs of the folder, then derive the mask. -/
def dataInit (env : LoaderEnv) (folder : String) (timings : List (Int × Int)) :
    Except LoadError Data := do
  let ac ← read_ac_file env folder
  let pr ← read_pr_file env folder
  .ok (Data.build ac pr timings)

/-- Physical-side code resolution (data.py lines 177-181). -/
def resolveSideCode (side : Side) (hemiside : String) : String :=
  match side with
  | .HEMISIDE => hemiside
  | .HEALTHY => if hemiside = "L" then "R" else "L"
  | _ => side.value

/-- One `(start, end)` manifest entry: build the two ISO instants from the
session date and parse them to millisecond timestamps. -/
def parseTiming (env : LoaderEnv) (date : String) (t : String × String) :
    Except LoadError (Int × Int) := do
  let s ← (env.parseTime (date ++ "T" ++ t.1.replace "::" ":" ++ "Z")).elim
    (Except.error LoadError.invalidTimestamp) Except.ok
  let e ← (env.parseTime (date ++ "T" ++ t.2.replace "::" ":" ++ "Z")).elim
    (Except.error LoadError.invalidTimestamp) Except.ok
  .ok (s, e)

/-- One (activity, activity-type) leaf (data.py lines 176-201): substitute the
resolved side code into the wildcard, require the folder to exist, derive the
date from its last segment, parse all windows, construct the dataset. -/
def loadLeaf (env : LoaderEnv) (base hemiside : String) (side : Side)
    (meta : ActivityMeta) : Except LoadError Data :=
  let side_value := resolveSideCode side hemiside
  let data_folder := base ++ "/" ++ meta.data_folder.replace "*" side_value
  if env.folderExists data_folder then do
    let date := (data_folder.splitOn "/").getLastD ""
    let timings ← meta.data.mapM (parseTiming env date)
    dataInit env data_folder timings
  else .error .dataFolderNotFound

def loadActivityTypes (env : LoaderEnv) (base hemiside : String) (side : Side) :
    List (String × ActivityMeta) → Except LoadError TypeMap
  | [] => .ok []
  | (code, meta) :: rest =>
    match ActivityType.from_string code with
    | .error e => .error e
    | .ok t =>
      match loadLeaf env base hemiside side meta with
      | .error e => .error e
      | .ok d =>
        match loadActivityTypes env base hemiside side rest with
        | .error e => .error e
        | .ok r => .ok ((t, d) :: r)

abbrev Logs := List String

/-- The non-fatal schema warning logged for an activity whose type-code set
differs from the full enumeration. -/
def activityTypeLog (subject : String) (side : Side) (activity : String) : String :=
  "Activity types do not match for subject: " ++ subject ++ ", side: " ++
    side.value ++ ", activity: " ++ activity

def loadActivities (env : LoaderEnv) (base hemiside subject : String) (side : Side) :
    List (String × List (String × ActivityMeta)) → Except LoadError (Logs × ActMap)
  | [] => .ok ([], [])
  | (name, tm) :: rest =>
    let logs0 :=
      if sortStr (tm.map Prod.fst) = sortStr (ActivityType.all.map ActivityType.value)
      then [] else [activityTypeLog subject side name]
    match loadActivityTypes env base hemiside side tm with
    | .error e => .error e
    | .ok entries =>
      match loadActivities env base hemiside subject side rest with
      | .error e => .error e
      | .ok (logs1, restOut) => .ok (logs0 ++ logs1, (name, entries) :: restOut)

/-- The canonical activity-name check: the first visit records the sorted
name list, every later visit must reproduce it exactly. -/
def checkCanonical (canon : Option (List String)) (names : List String) :
    Except LoadError (Option (List String)) :=
  match canon with
  | none => .ok (some (sortStr names))
  | some c => if sortStr names = c then .ok (some c) else .error .schemaMismatch

def loadSides (env : LoaderEnv) (base hemiside subject : String)
    (activities : List (String × List (String × ActivityMeta))) :
    List Side → Option (List String) →
    Except LoadError (Option (List String) × Logs × SideMap)
  | [], canon => .ok (canon, [], [])
  | side :: rest, canon =>
    match checkCanonical canon (activities.map Prod.fst) with
    | .error e => .error e
    | .ok canon1 =>
      match loadActivities env base hemiside subject side activities with
      | .error e => .error e
      | .ok (logs0, acts) =>
        match loadSides env base hemiside subject activities rest canon1 with
        | .error e => .error e
        | .ok (canon2, logs1, restOut) =>
          .ok (canon2, logs0 ++ logs1, (side, acts) :: restOut)

/-- One subject: validate `hemiside`, then walk all four `Side` values. -/
def loadSubject (env : LoaderEnv) (base : String) (canon : Option (List String))
    (subject : String) (sub : SubjectManifest) :
    Except LoadError (Option (List String) × Logs × SideMap) :=
  if sub.hemiside = "L" ∨ sub.hemiside = "R" then
    loadSides env base sub.hemiside subject sub.activities Side.all canon
  else .error .invalidHemiside

def loadSubjects (env : LoaderEnv) (base : String) :
    Manifest → Option (List String) →
    Except LoadError (Logs × List (String × SideMap))
  | [], _ => .ok ([], [])
  | (name, sub) :: rest, canon =>
    match loadSubject env base canon name sub with
    | .error e => .error e
    | .ok (canon1, logs0, sm) =>
      match loadSubjects env base rest canon1 with
      | .error e => .error e
      | .ok (logs1, restOut) => .ok (logs0 ++ logs1, (name, sm) :: restOut)

/-- `TheramiData.from_json`, relative to the manifest's parent folder. -/
def TheramiData.from_json (env : LoaderEnv) (base : String) (m : Manifest) :
    Except LoadError (Logs × TheramiData) :=
  match loadSubjects env base m none with
  | .error e => .error e
  | .ok r => .ok (r.1, ⟨r.2⟩)

def loadOk (r : Except LoadError (Logs × TheramiData)) : TheramiData :=
  match r with
  | .ok x => x.2
  | .error _ => ⟨[]⟩

def logsOf (r : Except LoadError (Logs × TheramiData)) : Logs :=
  match r with
  | .ok x => x.1
  | .error _ => []

def isOkLoad (r : Except LoadError (Logs × TheramiData)) : Bool :=
  match r with
  | .ok _ => true
  | .error _ => false

/-! ### Exporter (exporter.py) -/

inductive ExportError where
  | keyNotFound
deriving DecidableEq, Repr

structure NumEnv where
  sqrt : ℚ → ℚ

def listMean (xs : List ℚ) : ℚ := xs.sum / (xs.length : ℚ)

/-- Sample variance (pandas `std` squared, ddof = 1); the empty and
single-element NaN cases are idealised as 0 via division by zero. -/
def listSampleVar (xs : List ℚ) : ℚ :=
  (xs.map (fun x => (x - listMean xs) ^ 2)).sum / ((xs.length : ℚ) - 1)

def meanAc (tp : Data) : ℚ :=
  listMean ((tp.activity_counts).map (fun r => r.activity_counts))

def meanPr (tp : Data) : ℚ :=
  listMean ((tp.pulse_rate).map (fun r => r.pulse_rate_bpm))

def varAc (tp : Data) : ℚ :=
  listSampleVar ((tp.activity_counts).map (fun r => r.activity_counts))

def varPr (tp : Data) : ℚ :=
  listSampleVar ((tp.pulse_rate).map (fun r => r.pulse_rate_bpm))

/-- Round half to even at integer precision (numpy rounding). -/
def roundHalfEven (x : ℚ) : ℤ :=
  let n := Rat.floor x
  if x - n < 1 / 2 then n
  else if 1 / 2 < x - n then n + 1
  else if n % 2 = 0 then n else n + 1

/-- `df.round(1)`. -/
def round1 (x : ℚ) : ℚ := (roundHalfEven (x * 10) : ℚ) / 10

/-- `df.round(3)`. -/
def round3 (x : ℚ) : ℚ := (roundHalfEven (x * 1000) : ℚ) / 1000

structure SummaryRow where
  subject : String
  side_name : String
  activity : String
  type_name : String
  ac_mean : ℚ
  ac_std : ℚ
  pr_mean : ℚ
  pr_std : ℚ
deriving DecidableEq, Repr

structure BimanualRow where
  subject : String
  activity : String
  type_name : String
  value : ℚ
deriving DecidableEq, Repr

/-- `data[keys]`: a missing axis value is a fatal key-lookup error. -/
def getE (d : TheramiData) (k : Keys) : Except ExportError Data :=
  match d.get k.subject k.side k.activity k.activity_type with
  | some tp => .ok tp
  | none => .error .keyNotFound

def mkSummaryRow (env : NumEnv) (k : Keys) (tp : Data) : SummaryRow :=
  ⟨k.subject, k.side.graph_name, k.activity, k.activity_type.graph_name,
    meanAc tp, env.sqrt (varAc tp), meanPr tp, env.sqrt (varPr tp)⟩

/-- The summary-statistics loop of `Exporter.to_csv`. -/
def summaryLoop (env : NumEnv) (d : TheramiData) :
    List Keys → Except ExportError (List SummaryRow)
  | [] => .ok []
  | k :: rest =>
    match getE d k with
    | .error e => .error e
    | .ok tp =>
      match summaryLoop env d rest with
      | .error e => .error e
      | .ok r => .ok (mkSummaryRow env k tp :: r)

def roundSummary (r : SummaryRow) : SummaryRow :=
  ⟨r.subject, r.side_name, r.activity, r.type_name,
    round1 r.ac_mean, round1 r.ac_std, round1 r.pr_mean, round1 r.pr_std⟩

def summary_statistics (env : NumEnv) (d : TheramiData) :
    Except ExportError (List SummaryRow) :=
  match summaryLoop env d d.iterKeys with
  | .error e => .error e
  | .ok rows => .ok (rows.map roundSummary)

/-- The bimanual loop of `Exporter.to_csv`: skip every key whose side is not
HEMISIDE, pair the remaining ones with the HEALTHY entry of the same
subject, activity and activity type. -/
def bimanualLoop (d : TheramiData) : List Keys → Except ExportError (List BimanualRow)
  | [] => .ok []
  | k :: rest =>
    if k.side = Side.HEMISIDE then
      match getE d k with
      | .error e => .error e
      | .ok tp_hemi =>
        match getE d ⟨k.subject, Side.HEALTHY, k.activity, k.activity_type⟩ with
        | .error e => .error e
        | .ok tp_healthy =>
          match bimanualLoop d rest with
          | .error e => .error e
          | .ok r =>
            .ok (⟨k.subject, k.activity, k.activity_type.graph_name,
              meanAc tp_hemi / meanAc tp_healthy⟩ :: r)
    else bimanualLoop d rest

def roundBimanual (r : BimanualRow) : BimanualRow :=
  ⟨r.subject, r.activity, r.type_name, round3 r.value⟩

def bimanual_statistics (d : TheramiData) : Except ExportError (List BimanualRow) :=
  match bimanualLoop d d.iterKeys with
  | .error e => .error e
  | .ok rows => .ok (rows.map roundBimanual)

/-! ### Filesystem model for the CSV writes -/

abbrev FPath := List String

/-- A written CSV: header row and data rows of rendered cells; numeric cells
keep their exact rational value. -/
inductive Cell where
  | str (s : String)
  | num (q : ℚ)
deriving DecidableEq, Repr

abbrev Csv := List (List Cell)

structure FileSys where
  files : List (FPath × Csv)
  dirs : List FPath
deriving DecidableEq, Repr

/-- Overwriting file write. -/
def fsSet (files : List (FPath × Csv)) (p : FPath) (c : Csv) : List (FPath × Csv) :=
  if p ∈ files.map Prod.fst then files.map (fun e => if e.1 = p then (p, c) else e)
  else files ++ [(p, c)]

/-- All nonempty prefixes of a path: the directories
`mkdir(parents=True, exist_ok=True)` guarantees to exist afterwards. -/
def ancestors (p : FPath) : List FPath :=
  (List.range p.length).map (fun i => p.take (i + 1))

def mkdirParents (dirs : List FPath) (p : FPath) : List FPath :=
  dirs ++ (ancestors p).filter (fun a => decide (a ∉ dirs))

def summaryHeader : List Cell :=
  [.str "Subject", .str "Side", .str "Activity", .str "Activity type",
    .str "Activity counts mean", .str "Activity counts std",
    .str "Pulse rate mean", .str "Pulse rate std"]

def summaryCsv (rows : List SummaryRow) : Csv :=
  summaryHeader :: rows.map (fun r =>
    [.str r.subject, .str r.side_name, .str r.activity, .str r.type_name,
      .num r.ac_mean, .num r.ac_std, .num r.pr_mean, .num r.pr_std])

def bimanualHeader : List Cell :=
  [.str "Subject", .str "Activity", .str "Activity type",
    .str "Activity counts bimanual index"]

def bimanualCsv (rows : List BimanualRow) : Csv :=
  bimanualHeader :: rows.map (fun r =>
    [.str r.subject, .str r.activity, .str r.type_name, .num r.value])

/-- `Exporter.to_csv`: build and write the summary table, then build and
write the bimanual table, creating parent directories before each write. -/
def Exporter.to_csv (env : NumEnv) (d : TheramiData) (save_folder : FPath)
    (fs : FileSys) : Except ExportError FileSys :=
  match summary_statistics env d with
  | .error e => .error e
  | .ok srows =>
    let summary_statistics_path := save_folder ++ ["summary_statistics.csv"]
    let fs1 : FileSys :=
      ⟨fsSet fs.files summary_statistics_path (summaryCsv srows),
        mkdirParents fs.dirs summary_statistics_path.dropLast⟩
    match bimanual_statistics d with
    | .error e => .error e
    | .ok brows =>
      let bimanual_statistics_path := save_folder ++ ["bimanual_statistics.csv"]
      .ok ⟨fsSet fs1.files bimanual_statistics_path (bimanualCsv brows),
        mkdirParents fs1.dirs bimanual_statistics_path.dropLast⟩

def TheramiData.to_csv (d : TheramiData) (env : NumEnv) (save_folder : FPath)
    (fs : FileSys) : Except ExportError FileSys :=
  Exporter.to_csv env d save_folder fs

/-- The masked activity-counts mean of the entry at a key, 0 when absent. -/
def getMeanAc (d : TheramiData) (s : String) (sd : Side) (a : String)
    (t : ActivityType) : ℚ :=
  ((d.get s sd a t).map meanAc).getD 0

def isOkExport (r : Except ExportError FileSys) : Bool :=
  match r with
  | .ok _ => true
  | .error _ => false

/-! ### Plotter (plotter.py lines 42-61): the pre-rendering phase -/

inductive PlotError where
  | multiSubjectUnsupported
  | mixedSideFrame
deriving DecidableEq, Repr

/-- `Plotter._boxplot` up to and including its validation: more than one
subject is unsupported; the two side labeling frames must not be mixed; on
success the `(activity_type, side)` groups are drawn in product order. -/
def Plotter.boxplot_groups (d : TheramiData) :
    Except PlotError (List (ActivityType × Side)) :=
  if 1 < d.subjects.length then .error .multiSubjectUnsupported
  else
    let groups := d.activity_types.flatMap fun t => d.sides.map fun sd => (t, sd)
    if (Side.LEFT ∈ d.sides ∨ Side.RIGHT ∈ d.sides) ∧
        (Side.HEMISIDE ∈ d.sides ∨ Side.HEALTHY ∈ d.sides) then
      .error .mixedSideFrame
    else if (Side.HEMISIDE ∈ d.sides ∨ Side.HEALTHY ∈ d.sides) ∧
        (Side.LEFT ∈ d.sides ∨ Side.RIGHT ∈ d.sides) then
      .error .mixedSideFrame
    else .ok groups

def Plotter.activity_counts_boxplot (d : TheramiData) :
    Except PlotError (List (ActivityType × Side)) :=
  Plotter.boxplot_groups d

def Plotter.pulse_rate_boxplot (d : TheramiData) :
    Except PlotError (List (ActivityType × Side)) :=
  Plotter.boxplot_groups d

/-! ### Concrete instances used by witnesses and counterexamples -/

def meta0 : ActivityMeta := ⟨"*/2024-01-01", [("10::00::00", "10::05::00")]⟩

/-- A loader environment in which every folder exists, every instant parses
to 0 and every folder holds exactly one file of each pattern. -/
def envOK : LoaderEnv :=
  ⟨fun _ => true, fun _ => some 0, fun _ => [[⟨0, 0⟩]], fun _ => [[⟨0, 0⟩]]⟩

/-- A loader environment in which no folder exists. -/
def envNoFolder : LoaderEnv :=
  ⟨fun _ => false, fun _ => some 0, fun _ => [[⟨0, 0⟩]], fun _ => [[⟨0, 0⟩]]⟩

/-- Manifest whose single activity carries the unknown type code "Foo". -/
def mBad : Manifest :=
  [("S1", ⟨"L", [("reach", [("Foo", meta0)])]⟩)]

/-- Manifest whose single activity only carries the "AVG" type code. -/
def mMissing : Manifest :=
  [("S1", ⟨"L", [("reach", [("AVG", meta0)])]⟩)]

/-- Well-formed single-subject manifest. -/
def mGood : Manifest :=
  [("S1", ⟨"L", [("reach", [("AVG", meta0), ("Trad", meta0)])]⟩)]

/-- Two subjects with different activity-name sets. -/
def mTwo : Manifest :=
  [("S1", ⟨"L", [("reach", [("AVG", meta0), ("Trad", meta0)])]⟩),
    ("S2", ⟨"R", [("grasp", [("AVG", meta0), ("Trad", meta0)])]⟩)]

def subW : SubjectManifest := ⟨"L", [("grasp", [("AVG", meta0), ("Trad", meta0)])]⟩

def dataHemi : Data := ⟨[⟨0, 10⟩], [⟨0, 70⟩], [true]⟩

def dataHealthy : Data := ⟨[⟨0, 5⟩], [⟨0, 70⟩], [true]⟩

/-- Single-subject collection in the condition frame, both activity types. -/
def dEx : TheramiData :=
  ⟨[("S1",
    [(Side.HEMISIDE, [("reach", [(ActivityType.AVG, dataHemi), (ActivityType.TRADITIONAL, dataHemi)])]),
      (Side.HEALTHY, [("reach", [(ActivityType.AVG, dataHealthy), (ActivityType.TRADITIONAL, dataHealthy)])])])]⟩

/-- Single-subject collection mixing the two side frames. -/
def dMixed : TheramiData :=
  ⟨[("S1",
    [(Side.LEFT, [("reach", [(ActivityType.AVG, dataHemi)])]),
      (Side.HEMISIDE, [("reach", [(ActivityType.AVG, dataHemi)])])])]⟩

/-- Single-subject collection with HEMISIDE but no HEALTHY entries. -/
def dHemiOnly : TheramiData :=
  ⟨[("S1", [(Side.HEMISIDE, [("reach", [(ActivityType.AVG, dataHemi)])])])]⟩

def numEnv0 : NumEnv := ⟨fun q => q⟩

def fs0 : FileSys := ⟨[], []⟩

/-! ### General list lemmas -/

theorem foldl_or_eq {α : Type} (p : α → Bool) (l : List α) (b : Bool) :
    l.foldl (fun m x => m || p x) b = (b || l.any p) := by
  induction l generalizing b with
  | nil => simp
  | cons x xs ih => simp [List.any_cons, ih, Bool.or_assoc]

theorem any_append_mem {α : Type} (l : List α) (p : α → Bool) (w : α) (hw : w ∈ l) :
    (l ++ [w]).any p = l.any p := by
  rw [List.any_append]
  cases hpw : p w with
  | true =>
    have hl : l.any p = true := List.any_eq_true.mpr ⟨w, hw, hpw⟩
    simp [hl]
  | false => simp [hpw]

/-! ### C1: the row mask -/

theorem rowSelected_eq (timings : List (Int × Int)) (ts : Int) :
    rowSelected timings ts =
      (decide (ts < 0) ||
        timings.any (fun t => decide (t.1 ≤ ts) && decide (ts ≤ t.2))) :=
  foldl_or_eq _ timings _

theorem any_eq_decide_inAnyWindow (timings : List (Int × Int)) (ts : Int) :
    timings.any (fun t => decide (t.1 ≤ ts) && decide (ts ≤ t.2)) =
      decide (inAnyWindow timings ts) := by
  rw [Bool.eq_iff_iff]
  simp [List.any_eq_true, inAnyWindow]

/-- C1: counterexample to the claim as stated. The mask is seeded with
`timestamp_unix < 0`, not with an all-false series, so a row whose timestamp
is negative is selected even though it lies in no window at all. -/
theorem C1_counterexample :
    (Data.build [⟨-1, 5⟩] [] []).mask = [true] ∧
    (Data.build [⟨-1, 5⟩] [] []).activity_counts = [⟨-1, 5⟩] ∧
    ¬ inAnyWindow [] (-1) :=
  ⟨rfl, rfl, by simp [inAnyWindow]⟩

/-- C1 (amended): over tables all of whose timestamps are nonnegative, the
mask selects a row iff its timestamp lies in at least one closed
`[start, end]` window, and appending a window already present leaves the
mask unchanged (idempotent union). -/
theorem C1_row_mask (rows : List AcRow) (timings : List (Int × Int))
    (h : ∀ r ∈ rows, 0 ≤ r.timestamp_unix) :
    computeMask rows timings =
      rows.map (fun r => decide (inAnyWindow timings r.timestamp_unix)) ∧
    ∀ w ∈ timings, computeMask rows (timings ++ [w]) = computeMask rows timings := by
  constructor
  · unfold computeMask
    apply List.map_congr_left
    intro r hr
    have h0 : ¬ r.timestamp_unix < 0 := not_lt.mpr (h r hr)
    rw [rowSelected_eq, any_eq_decide_inAnyWindow]
    simp [h0]
  · intro w hw
    unfold computeMask
    apply List.map_congr_left
    intro r _
    rw [rowSelected_eq, rowSelected_eq, any_append_mem _ _ _ hw]

theorem C1_row_mask_witness :
    computeMask [⟨5, 1⟩] [(0, 10), (3, 4)] = [true] ∧
    computeMask [⟨5, 1⟩] ([(0, 10), (3, 4)] ++ [(3, 4)]) =
      computeMask [⟨5, 1⟩] [(0, 10), (3, 4)] :=
  ⟨((C1_row_mask [⟨5, 1⟩] [(0, 10), (3, 4)] (by decide)).1).trans (by decide),
    (C1_row_mask [⟨5, 1⟩] [(0, 10), (3, 4)] (by decide)).2 (3, 4) (by decide)⟩

/-! ### C2: the pulse-rate accessor -/

/-- C2: counterexample to the claim as stated. The one mask is derived from
the activity-counts timestamps and applied positionally to the pulse-rate
table, so a pulse-rate row whose own timestamp lies inside the window is
dropped whenever the activity-counts timestamp at the same position lies
outside it. -/
theorem C2_counterexample :
    (Data.build [⟨5, 0⟩] [⟨100, 70⟩] [(90, 110)]).pulse_rate = [] ∧
    inAnyWindow [(90, 110)] 100 :=
  ⟨rfl, by decide⟩

/-- C2 (amended): the pulse-rate accessor keeps exactly the pulse-rate rows
at the positions at which the mask derived from the activity-counts
timestamps is set, not the rows selected by their own timestamps. -/
theorem C2_pulse_rate_mask (ac : List AcRow) (pr : List PrRow)
    (timings : List (Int × Int)) (h : pr.length = ac.length) :
    (Data.build ac pr timings).pulse_rate =
      ((ac.zip pr).filter
        (fun x => rowSelected timings x.1.timestamp_unix)).map Prod.snd := by
  unfold Data.build Data.pulse_rate applyMask computeMask
  induction ac generalizing pr with
  | nil =>
    cases pr with
    | nil => rfl
    | cons p pt => simp at h
  | cons a at' ih =>
    cases pr with
    | nil => simp at h
    | cons p pt =>
      have hlen : pt.length = at'.length := by simpa using h
      cases hb : rowSelected timings a.timestamp_unix with
      | true => simp [List.zip_cons_cons, List.filter_cons, hb, ih pt hlen]
      | false => simp [List.zip_cons_cons, List.filter_cons, hb, ih pt hlen]

theorem C2_pulse_rate_mask_witness :
    (Data.build [⟨5, 0⟩, ⟨95, 0⟩] [⟨100, 70⟩, ⟨200, 80⟩] [(90, 110)]).pulse_rate =
      ((([⟨5, 0⟩, ⟨95, 0⟩] : List AcRow).zip
          ([⟨100, 70⟩, ⟨200, 80⟩] : List PrRow)).filter
        (fun x => rowSelected [(90, 110)] x.1.timestamp_unix)).map Prod.snd :=
  C2_pulse_rate_mask [⟨5, 0⟩, ⟨95, 0⟩] [⟨100, 70⟩, ⟨200, 80⟩] [(90, 110)] rfl

/-! ### C3: physical-side resolution -/

/-- C3: for a subject with hemiside h, the loader substitutes into the
wildcard of the data-folder pattern the code of the side itself for
LEFT/RIGHT, h for HEMISIDE and the opposite of h for HEALTHY (in particular
"R" for HEALTHY when h is "L"); the folder probed by the leaf loader is
exactly the base folder joined with that substituted pattern. -/
theorem C3_side_resolution (h : String) (_hh : h = "L" ∨ h = "R") :
    resolveSideCode Side.LEFT h = "L" ∧
    resolveSideCode Side.RIGHT h = "R" ∧
    resolveSideCode Side.HEMISIDE h = h ∧
    (resolveSideCode Side.HEALTHY h = if h = "L" then "R" else "L") ∧
    resolveSideCode Side.HEALTHY "L" = "R" ∧
    ∀ (env : LoaderEnv) (side : Side) (meta : ActivityMeta) (base : String),
      env.folderExists
        (base ++ "/" ++ meta.data_folder.replace "*" (resolveSideCode side h)) = false →
      loadLeaf env base h side meta = .error .dataFolderNotFound := by
  refine ⟨rfl, rfl, rfl, rfl, rfl, ?_⟩
  intro env side meta base hfe
  simp [loadLeaf, hfe]

theorem C3_side_resolution_witness :
    resolveSideCode Side.HEALTHY "L" = "R" ∧
    loadLeaf envNoFolder "base" "L" Side.HEALTHY meta0 = .error .dataFolderNotFound :=
  ⟨(C3_side_resolution "L" (Or.inl rfl)).2.2.2.2.1,
    (C3_side_resolution "L" (Or.inl rfl)).2.2.2.2.2 envNoFolder Side.HEALTHY meta0
      "base" rfl⟩

/-! ### C9: the plotter's side-frame check -/

/-- C9: on a single-subject collection whose side set meets both labeling
frames, every boxplot operation fails with the mixed-side-frame error before
producing any groups; a side set lying entirely within one frame passes the
check and the groups are produced. -/
theorem C9_mixed_side_frame (d : TheramiData) (h : d.subjects.length = 1) :
    (((Side.LEFT ∈ d.sides ∨ Side.RIGHT ∈ d.sides) ∧
        (Side.HEMISIDE ∈ d.sides ∨ Side.HEALTHY ∈ d.sides)) →
      Plotter.boxplot_groups d = .error .mixedSideFrame ∧
      Plotter.activity_counts_boxplot d = .error .mixedSideFrame ∧
      Plotter.pulse_rate_boxplot d = .error .mixedSideFrame) ∧
    (((∀ s ∈ d.sides, s ∈ Side.sided_names) ∨
        (∀ s ∈ d.sides, s ∈ Side.condition_names)) →
      Plotter.boxplot_groups d =
        .ok (d.activity_types.flatMap fun t => d.sides.map fun sd => (t, sd))) := by
  have hns : ¬ 1 < d.subjects.length := by omega
  constructor
  · intro hmix
    refine ⟨?_, ?_, ?_⟩ <;>
      simp [Plotter.boxplot_groups, Plotter.activity_counts_boxplot,
        Plotter.pulse_rate_boxplot, hns, hmix]
  · intro hframe
    have hnm : ¬ ((Side.LEFT ∈ d.sides ∨ Side.RIGHT ∈ d.sides) ∧
        (Side.HEMISIDE ∈ d.sides ∨ Side.HEALTHY ∈ d.sides)) := by
      rintro ⟨hlr, hcond⟩
      cases hframe with
      | inl hall =>
        cases hcond with
        | inl hm => have := hall _ hm; simp [Side.sided_names] at this
        | inr hm => have := hall _ hm; simp [Side.sided_names] at this
      | inr hall =>
        cases hlr with
        | inl hm => have := hall _ hm; simp [Side.condition_names] at this
        | inr hm => have := hall _ hm; simp [Side.condition_names] at this
    have hnm2 : ¬ ((Side.HEMISIDE ∈ d.sides ∨ Side.HEALTHY ∈ d.sides) ∧
        (Side.LEFT ∈ d.sides ∨ Side.RIGHT ∈ d.sides)) := by
      rintro ⟨ha, hb⟩
      exact hnm ⟨hb, ha⟩
    simp [Plotter.boxplot_groups, hns, hnm, hnm2]

theorem C9_mixed_side_frame_witness :
    Plotter.activity_counts_boxplot dMixed = .error .mixedSideFrame ∧
    Plotter.pulse_rate_boxplot dMixed = .error .mixedSideFrame ∧
    Plotter.boxplot_groups dEx =
      .ok (dEx.activity_types.flatMap fun t => dEx.sides.map fun sd => (t, sd)) :=
  ⟨((C9_mixed_side_frame dMixed (by decide)).1
      ⟨Or.inl (by decide), Or.inl (by decide)⟩).2.1,
    ((C9_mixed_side_frame dMixed (by decide)).1
      ⟨Or.inl (by decide), Or.inl (by decide)⟩).2.2,
    (C9_mixed_side_frame dEx (by decide)).2 (Or.inr (by decide))⟩

/-! ### Ordered-dict lemmas and C6: `filter()` round-trip -/

theorem alookup_cons_self {α β : Type} [DecidableEq α] (k : α) (v : β)
    (rest : List (α × β)) : alookup ((k, v) :: rest) k = some v := by
  simp [alookup]

theorem alookup_cons_ne {α β : Type} [DecidableEq α] {x k : α} (v : β)
    (rest : List (α × β)) (h : x ≠ k) :
    alookup ((k, v) :: rest) x = alookup rest x := by
  simp [alookup, h]

theorem filterMap_congr_mem {α β : Type} (l : List α) (f g : α → Option β)
    (h : ∀ a ∈ l, f a = g a) : l.filterMap f = l.filterMap g := by
  induction l with
  | nil => rfl
  | cons a t ih =>
    rw [List.filterMap_cons, List.filterMap_cons, h a (List.mem_cons_self a t),
      ih (fun x hx => h x (List.mem_cons_of_mem _ hx))]

theorem alookup_reconstruct {α β γ : Type} [DecidableEq α] (f : α → β → γ) :
    ∀ (m : List (α × β)), (m.map Prod.fst).Nodup →
      (m.map Prod.fst).filterMap
        (fun k => (alookup m k).map (fun v => (k, f k v))) =
      m.map (fun p => (p.1, f p.1 p.2))
  | [], _ => rfl
  | (k, v) :: rest, hnd => by
    have hk : k ∉ rest.map Prod.fst := by
      rw [List.map_cons, List.nodup_cons] at hnd
      exact hnd.1
    have hrest : (rest.map Prod.fst).Nodup := by
      rw [List.map_cons, List.nodup_cons] at hnd
      exact hnd.2
    have htail : (rest.map Prod.fst).filterMap
        (fun x => (alookup ((k, v) :: rest) x).map (fun w => (x, f x w))) =
        (rest.map Prod.fst).filterMap
        (fun x => (alookup rest x).map (fun w => (x, f x w))) := by
      apply filterMap_congr_mem
      intro x hx
      have hxk : x ≠ k := fun heq => hk (heq ▸ hx)
      rw [alookup_cons_ne _ _ hxk]
    simp only [List.map_cons, List.filterMap_cons, alookup_cons_self, Option.map_some']
    rw [htail, alookup_reconstruct f rest hrest]

/-- Rebuilding an ordered mapping from its own key list by lookup, applying a
value transformation that fixes every stored value, returns the mapping. -/
theorem reconstruct_id {α β : Type} [DecidableEq α] (ks : List α)
    (m : List (α × β)) (g : α → β → β) (hkeys : m.map Prod.fst = ks)
    (hnd : ks.Nodup) (hg : ∀ p ∈ m, g p.1 p.2 = p.2) :
    ks.filterMap (fun k => (alookup m k).map (fun v => (k, g k v))) = m := by
  subst hkeys
  refine (alookup_reconstruct g m hnd).trans ?_
  refine Eq.trans (List.map_congr_left ?_) (List.map_id m)
  intro p hp
  show (p.1, g p.1 p.2) = p
  rw [hg p hp]

/-- C6: on a uniform-schema collection, `filter()` with no arguments rebuilds
the collection unchanged: same key sets at every level, and every leaf entry
is the very value stored in the original (no recomputation). -/
theorem C6_filter_id (d : TheramiData) (h : uniformSchema d = true) :
    d.filter none none none none = d := by
  simp only [uniformSchema, Bool.and_eq_true, decide_eq_true_eq,
    List.all_eq_true] at h
  obtain ⟨⟨⟨⟨hsub, hsid⟩, hact⟩, htyp⟩, hall⟩ := h
  simp only [TheramiData.filter, Option.getD_none]
  refine congrArg TheramiData.mk ?_
  refine reconstruct_id d.subjects d.data _ rfl hsub ?_
  intro p hp
  obtain ⟨hkeys, hin⟩ := hall p hp
  refine reconstruct_id d.sides p.2 _ hkeys hsid ?_
  intro q hq
  obtain ⟨qkeys, qin⟩ := hin q hq
  refine reconstruct_id d.activities q.2 _ qkeys hact ?_
  intro r hr
  refine reconstruct_id d.activity_types r.2 _ (qin r hr) htyp ?_
  intro w _
  rfl

theorem C6_filter_id_witness :
    uniformSchema dEx = true ∧ dEx.filter none none none none = dEx :=
  ⟨by decide, C6_filter_id dEx (by decide)⟩

/-! ### C7: iteration over the collection -/

theorem length_flatMap_const {α β : Type} (l : List α) (f : α → List β) (n : ℕ)
    (h : ∀ a ∈ l, (f a).length = n) : (l.flatMap f).length = l.length * n := by
  induction l with
  | nil => simp
  | cons a t ih =>
    rw [List.flatMap_cons, List.length_append, h a (List.mem_cons_self a t),
      ih (fun x hx => h x (List.mem_cons_of_mem _ hx)), List.length_cons]
    ring

theorem alookup_isSome {α β : Type} [DecidableEq α] :
    ∀ (m : List (α × β)) (x : α), x ∈ m.map Prod.fst →
      (alookup m x).isSome = true
  | [], x, hx => by simp at hx
  | (k, v) :: rest, x, hx => by
    by_cases hxk : x = k
    · subst hxk
      rw [alookup_cons_self]
      rfl
    · rw [alookup_cons_ne _ _ hxk]
      refine alookup_isSome rest x ?_
      rw [List.map_cons, List.mem_cons] at hx
      exact hx.resolve_left hxk

theorem alookup_mem {α β : Type} [DecidableEq α] :
    ∀ (m : List (α × β)) (x : α) (v : β), alookup m x = some v → (x, v) ∈ m
  | [], x, v, hx => by simp [alookup] at hx
  | (k, w) :: rest, x, v, hx => by
    by_cases hxk : x = k
    · subst hxk
      rw [alookup_cons_self, Option.some_inj] at hx
      subst hx
      exact List.mem_cons_self _ _
    · rw [alookup_cons_ne _ _ hxk] at hx
      exact List.mem_cons_of_mem _ (alookup_mem rest x v hx)

/-- On a uniform-schema collection, every key drawn from the canonical axes
is present. -/
theorem get_isSome_of_uniform (d : TheramiData) (h : uniformSchema d = true)
    (s : String) (sd : Side) (a : String) (t : ActivityType)
    (hs : s ∈ d.subjects) (hsd : sd ∈ d.sides) (ha : a ∈ d.activities)
    (ht : t ∈ d.activity_types) :
    (d.get s sd a t).isSome = true := by
  simp only [uniformSchema, Bool.and_eq_true, decide_eq_true_eq,
    List.all_eq_true] at h
  obtain ⟨⟨⟨⟨_, _⟩, _⟩, _⟩, hall⟩ := h
  have hs' : s ∈ d.data.map Prod.fst := hs
  obtain ⟨sm, hsm⟩ := Option.isSome_iff_exists.mp (alookup_isSome d.data s hs')
  obtain ⟨hkeys, hin⟩ := hall (s, sm) (alookup_mem d.data s sm hsm)
  obtain ⟨am, ham⟩ := Option.isSome_iff_exists.mp
    (alookup_isSome sm sd (by rw [hkeys]; exact hsd))
  obtain ⟨qkeys, qin⟩ := hin (sd, am) (alookup_mem sm sd am ham)
  obtain ⟨tm, htm⟩ := Option.isSome_iff_exists.mp
    (alookup_isSome am a (by rw [qkeys]; exact ha))
  have rkeys := qin (a, tm) (alookup_mem am a tm htm)
  have hleaf := alookup_isSome tm t (by rw [rkeys]; exact ht)
  simp only [TheramiData.get, hsm, ham, htm, Option.some_bind]
  exact hleaf

/-- C7: iterating a uniform-schema collection yields the cartesian product of
the canonical axes in subject-major, then side, activity, activity-type
order; the number of yielded keys is the product of the axis sizes; every
yielded key is present in the collection. Re-iteration is the same list. -/
theorem C7_iteration (d : TheramiData) (h : uniformSchema d = true) :
    d.iterKeys = (d.subjects.flatMap fun s => d.sides.flatMap fun sd =>
      d.activities.flatMap fun a => d.activity_types.map fun t => ⟨s, sd, a, t⟩) ∧
    d.iterKeys.length =
      d.subjects.length * d.sides.length * d.activities.length *
        d.activity_types.length ∧
    ∀ k ∈ d.iterKeys,
      (d.get k.subject k.side k.activity k.activity_type).isSome = true := by
  refine ⟨rfl, ?_, ?_⟩
  · unfold TheramiData.iterKeys
    have h3 : ∀ (s : String) (sd : Side) (a : String),
        ((d.activity_types.map fun t => (⟨s, sd, a, t⟩ : Keys)).length) =
          d.activity_types.length :=
      fun _ _ _ => List.length_map _ _
    have h2 : ∀ (s : String) (sd : Side),
        ((d.activities.flatMap fun a =>
            d.activity_types.map fun t => (⟨s, sd, a, t⟩ : Keys)).length) =
          d.activities.length * d.activity_types.length :=
      fun s sd => length_flatMap_const _ _ _ (fun a _ => h3 s sd a)
    have h1 : ∀ (s : String),
        ((d.sides.flatMap fun sd => d.activities.flatMap fun a =>
            d.activity_types.map fun t => (⟨s, sd, a, t⟩ : Keys)).length) =
          d.sides.length * (d.activities.length * d.activity_types.length) :=
      fun s => length_flatMap_const _ _ _ (fun sd _ => h2 s sd)
    rw [length_flatMap_const _ _ _ (fun s _ => h1 s)]
    ring
  · intro k hk
    unfold TheramiData.iterKeys at hk
    obtain ⟨s, hs, hk⟩ := List.mem_flatMap.mp hk
    obtain ⟨sd, hsd, hk⟩ := List.mem_flatMap.mp hk
    obtain ⟨a, ha, hk⟩ := List.mem_flatMap.mp hk
    obtain ⟨t, ht, hk⟩ := List.mem_map.mp hk
    subst hk
    exact get_isSome_of_uniform d h s sd a t hs hsd ha ht

theorem C7_iteration_witness :
    dEx.iterKeys.length =
      dEx.subjects.length * dEx.sides.length * dEx.activities.length *
        dEx.activity_types.length :=
  (C7_iteration dEx (by decide)).2.1

/-! ### C10: the loader always materialises all four sides -/

theorem loadSides_keys (env : LoaderEnv) (base hemiside subject : String)
    (activities : List (String × List (String × ActivityMeta))) :
    ∀ (sides : List Side) (canon c2 : Option (List String)) (lg : Logs)
      (out : SideMap),
      loadSides env base hemiside subject activities sides canon =
        .ok (c2, lg, out) →
      out.map Prod.fst = sides
  | [], canon, c2, lg, out, hok => by
    rw [loadSides] at hok
    simp only [Except.ok.injEq, Prod.mk.injEq] at hok
    obtain ⟨-, -, hout⟩ := hok
    subst hout
    rfl
  | side :: rest, canon, c2, lg, out, hok => by
    rw [loadSides] at hok
    split at hok
    · exact absurd hok (by simp)
    · split at hok
      · exact absurd hok (by simp)
      · split at hok
        · exact absurd hok (by simp)
        · rename_i hrec
          simp only [Except.ok.injEq, Prod.mk.injEq] at hok
          obtain ⟨-, -, hout⟩ := hok
          subst hout
          rw [List.map_cons,
            loadSides_keys env base hemiside subject activities rest _ _ _ _ hrec]

theorem loadSubject_keys (env : LoaderEnv) (base : String)
    (canon c2 : Option (List String)) (subject : String) (sub : SubjectManifest)
    (lg : Logs) (out : SideMap)
    (hok : loadSubject env base canon subject sub = .ok (c2, lg, out)) :
    out.map Prod.fst = Side.all := by
  rw [loadSubject] at hok
  split at hok
  · exact loadSides_keys env base sub.hemiside subject sub.activities
      Side.all canon c2 lg out hok
  · exact absurd hok (by simp)

theorem loadSubjects_keys (env : LoaderEnv) (base : String) :
    ∀ (m : Manifest) (canon : Option (List String)) (lg : Logs)
      (out : List (String × SideMap)),
      loadSubjects env base m canon = .ok (lg, out) →
      ∀ p ∈ out, p.2.map Prod.fst = Side.all
  | [], canon, lg, out, hok => by
    rw [loadSubjects] at hok
    simp only [Except.ok.injEq, Prod.mk.injEq] at hok
    obtain ⟨-, hout⟩ := hok
    subst hout
    intro p hp
    simp at hp
  | (name, sub) :: rest, canon, lg, out, hok => by
    rw [loadSubjects] at hok
    split at hok
    · exact absurd hok (by simp)
    · rename_i hsub
      split at hok
      · exact absurd hok (by simp)
      · rename_i hrest
        simp only [Except.ok.injEq, Prod.mk.injEq] at hok
        obtain ⟨-, hout⟩ := hok
        subst hout
        intro p hp
        rcases List.mem_cons.mp hp with rfl | hp2
        · exact loadSubject_keys env base canon _ name sub _ _ hsub
        · exact loadSubjects_keys env base rest _ _ _ hrest p hp2

/-- C10: whatever the manifest says, every subject map the loader builds has
exactly the four Side keys in enumeration order; consequently a nonempty
loaded collection always contains both labeling frames, which is precisely
the combination the plotter rejects. -/
theorem C10_loader_sides (env : LoaderEnv) (base : String) (m : Manifest) :
    (∀ p ∈ (loadOk (TheramiData.from_json env base m)).data,
      p.2.map Prod.fst = Side.all) ∧
    ((loadOk (TheramiData.from_json env base m)).data ≠ [] →
      Side.LEFT ∈ (loadOk (TheramiData.from_json env base m)).sides ∧
      Side.HEMISIDE ∈ (loadOk (TheramiData.from_json env base m)).sides) := by
  have hmain : ∀ p ∈ (loadOk (TheramiData.from_json env base m)).data,
      p.2.map Prod.fst = Side.all := by
    intro p hp
    cases hls : loadSubjects env base m none with
    | error e =>
      have hempty : loadOk (TheramiData.from_json env base m) = ⟨[]⟩ := by
        unfold TheramiData.from_json loadOk
        rw [hls]
      rw [hempty] at hp
      simp at hp
    | ok r =>
      have hval : loadOk (TheramiData.from_json env base m) = ⟨r.2⟩ := by
        unfold TheramiData.from_json loadOk
        rw [hls]
      rw [hval] at hp
      exact loadSubjects_keys env base m none r.1 r.2 hls p hp
  refine ⟨hmain, fun hne => ?_⟩
  set dd := loadOk (TheramiData.from_json env base m) with hdd
  obtain ⟨p, rest, hcons⟩ : ∃ p rest, dd.data = p :: rest := by
    cases hdata : dd.data with
    | nil => exact absurd hdata hne
    | cons p rest => exact ⟨p, rest, rfl⟩
  have hsides : dd.sides = p.2.map Prod.fst := by
    unfold TheramiData.sides
    rw [hcons]
    rfl
  have hall := hmain p (by rw [hcons]; exact List.mem_cons_self _ _)
  rw [hsides, hall]
  refine ⟨?_, ?_⟩ <;> simp [Side.all]

theorem C10_loader_sides_witness :
    (loadOk (TheramiData.from_json envOK "b" mGood)).data ≠ [] ∧
    Side.LEFT ∈ (loadOk (TheramiData.from_json envOK "b" mGood)).sides ∧
    Side.HEMISIDE ∈ (loadOk (TheramiData.from_json envOK "b" mGood)).sides :=
  ⟨by decide, (C10_loader_sides envOK "b" mGood).2 (by decide)⟩

/-! ### C8: fatal activity-name mismatch versus non-fatal type-set mismatch -/

/-- C8: counterexample to the claim as stated. An activity whose type-code
set differs from the full enumeration because it holds an unknown code
("Foo") does not merely log an error: the subsequent wire-code conversion
aborts the whole load with the unknown-code error. -/
theorem C8_counterexample :
    TheramiData.from_json envOK "b" mBad = .error .unknownCode := rfl

/-- C8 (amended): a subject whose sorted activity-name list differs from the
recorded canonical one aborts the load with the schema-mismatch error (shown
both for the per-subject step and for a two-subject end-to-end run), whereas
an activity whose type codes are valid but form a proper subset of the
enumeration only logs one error per side and the load still completes. -/
theorem C8_schema_asymmetry :
    (∀ (env : LoaderEnv) (base : String) (c : List String) (subject : String)
      (sub : SubjectManifest),
      (sub.hemiside = "L" ∨ sub.hemiside = "R") →
      sortStr (sub.activities.map Prod.fst) ≠ c →
      loadSubject env base (some c) subject sub = .error .schemaMismatch) ∧
    TheramiData.from_json envOK "b" mTwo = .error .schemaMismatch ∧
    isOkLoad (TheramiData.from_json envOK "b" mMissing) = true ∧
    logsOf (TheramiData.from_json envOK "b" mMissing) =
      [activityTypeLog "S1" Side.LEFT "reach",
        activityTypeLog "S1" Side.RIGHT "reach",
        activityTypeLog "S1" Side.HEMISIDE "reach",
        activityTypeLog "S1" Side.HEALTHY "reach"] := by
  refine ⟨?_, rfl, rfl, rfl⟩
  intro env base c subject sub hhemi hne
  rw [loadSubject, if_pos hhemi]
  show loadSides env base sub.hemiside subject sub.activities
    (Side.LEFT :: [Side.RIGHT, Side.HEMISIDE, Side.HEALTHY]) (some c) = _
  rw [loadSides]
  have hcc : checkCanonical (some c) (sub.activities.map Prod.fst) =
      .error .schemaMismatch := by
    rw [checkCanonical, if_neg hne]
  rw [hcc]

theorem C8_schema_asymmetry_witness :
    loadSubject envOK "b" (some ["reach"]) "S2" subW = .error .schemaMismatch :=
  C8_schema_asymmetry.1 envOK "b" ["reach"] "S2" subW (Or.inl rfl) (by decide)

/-! ### C4: the bimanual export -/

theorem flatMap_congr_mem {α β : Type} (l : List α) (f g : α → List β)
    (h : ∀ a ∈ l, f a = g a) : l.flatMap f = l.flatMap g := by
  induction l with
  | nil => rfl
  | cons a t ih =>
    rw [List.flatMap_cons, List.flatMap_cons, h a (List.mem_cons_self a t),
      ih (fun x hx => h x (List.mem_cons_of_mem _ hx))]

theorem filter_flatMap {α β : Type} (l : List α) (g : α → List β) (p : β → Bool) :
    (l.flatMap g).filter p = l.flatMap (fun a => (g a).filter p) := by
  induction l with
  | nil => rfl
  | cons a t ih =>
    rw [List.flatMap_cons, List.filter_append, ih, List.flatMap_cons]

theorem flatMap_nil_of_forall {α β : Type} (l : List α) (h : α → List β)
    (hz : ∀ y ∈ l, h y = []) : l.flatMap h = [] := by
  induction l with
  | nil => rfl
  | cons a t ih =>
    rw [List.flatMap_cons, hz a (List.mem_cons_self a t), List.nil_append,
      ih (fun y hy => hz y (List.mem_cons_of_mem _ hy))]

theorem flatMap_eq_of_unique {α β : Type} (l : List α) (h : α → List β) (x : α)
    (hnd : l.Nodup) (hx : x ∈ l) (hz : ∀ y ∈ l, y ≠ x → h y = []) :
    l.flatMap h = h x := by
  induction l with
  | nil => simp at hx
  | cons a t ih =>
    rw [List.flatMap_cons]
    rcases List.mem_cons.mp hx with rfl | hxt
    · have hnil : t.flatMap h = [] := by
        refine flatMap_nil_of_forall t h (fun y hy => ?_)
        refine hz y (List.mem_cons_of_mem _ hy) (fun heq => ?_)
        exact (List.nodup_cons.mp hnd).1 (heq ▸ hy)
      rw [hnil, List.append_nil]
    · have hax : a ≠ x := fun heq =>
        (List.nodup_cons.mp hnd).1 (heq ▸ hxt)
      rw [hz a (List.mem_cons_self a t) hax, List.nil_append]
      exact ih (List.nodup_cons.mp hnd).2 hxt
        (fun y hy => hz y (List.mem_cons_of_mem _ hy))

theorem filter_nil_of_forall {α : Type} (l : List α) (p : α → Bool)
    (h : ∀ a ∈ l, p a = false) : l.filter p = [] := by
  induction l with
  | nil => rfl
  | cons a t ih =>
    simp [List.filter_cons, h a (List.mem_cons_self a t),
      ih (fun x hx => h x (List.mem_cons_of_mem _ hx))]

theorem filter_self_of_forall {α : Type} (l : List α) (p : α → Bool)
    (h : ∀ a ∈ l, p a = true) : l.filter p = l := by
  induction l with
  | nil => rfl
  | cons a t ih =>
    simp [List.filter_cons, h a (List.mem_cons_self a t),
      ih (fun x hx => h x (List.mem_cons_of_mem _ hx))]

/-- The bimanual loop on a key list whose HEMISIDE keys all have both their
HEMISIDE and their HEALTHY entry present: it keeps exactly the HEMISIDE keys
and emits the ratio of the two masked activity-counts means. -/
theorem bimanualLoop_eq (d : TheramiData) :
    ∀ (l : List Keys),
      (∀ k ∈ l, k.side = Side.HEMISIDE →
        (d.get k.subject Side.HEMISIDE k.activity k.activity_type).isSome = true ∧
        (d.get k.subject Side.HEALTHY k.activity k.activity_type).isSome = true) →
      bimanualLoop d l =
        .ok ((l.filter (fun k => decide (k.side = Side.HEMISIDE))).map
          (fun k => ⟨k.subject, k.activity, k.activity_type.graph_name,
            getMeanAc d k.subject Side.HEMISIDE k.activity k.activity_type /
              getMeanAc d k.subject Side.HEALTHY k.activity k.activity_type⟩))
  | [], _ => rfl
  | k :: rest, hyp => by
    have ihrec := bimanualLoop_eq d rest
      (fun x hx => hyp x (List.mem_cons_of_mem _ hx))
    rw [bimanualLoop]
    by_cases hside : k.side = Side.HEMISIDE
    · obtain ⟨hh, hhe⟩ := hyp k (List.mem_cons_self k rest) hside
      obtain ⟨th, hth⟩ := Option.isSome_iff_exists.mp hh
      obtain ⟨the, hthe⟩ := Option.isSome_iff_exists.mp hhe
      have hgE1 : getE d k = .ok th := by
        simp only [getE, hside, hth]
      have hgE2 : getE d ⟨k.subject, Side.HEALTHY, k.activity, k.activity_type⟩ =
          .ok the := by
        simp only [getE, hthe]
      have e1 : getMeanAc d k.subject Side.HEMISIDE k.activity k.activity_type =
          meanAc th := by
        rw [getMeanAc, hth]
        rfl
      have e2 : getMeanAc d k.subject Side.HEALTHY k.activity k.activity_type =
          meanAc the := by
        rw [getMeanAc, hthe]
        rfl
      rw [if_pos hside, hgE1, hgE2, ihrec, List.filter_cons]
      simp only [hside, decide_True, if_true, List.map_cons, e1, e2]
    · have hpk : decide (k.side = Side.HEMISIDE) = false := by
        simp [hside]
      rw [if_neg hside, ihrec, List.filter_cons]
      simp only [hpk, Bool.false_eq_true, if_false]

/-- C4: on a uniform-schema collection holding both condition sides, the
bimanual export emits exactly one row per (subject, activity, activity-type)
triple, in product order, whose value is the HEMISIDE masked activity-counts
mean divided by the matching HEALTHY one, rounded to three decimals. -/
theorem C4_bimanual_export (d : TheramiData) (h : uniformSchema d = true)
    (h2 : Side.HEMISIDE ∈ d.sides) (h3 : Side.HEALTHY ∈ d.sides) :
    bimanual_statistics d =
      .ok (d.subjects.flatMap fun s => d.activities.flatMap fun a =>
        d.activity_types.map fun t =>
          (⟨s, a, t.graph_name,
            round3 (getMeanAc d s Side.HEMISIDE a t /
              getMeanAc d s Side.HEALTHY a t)⟩ : BimanualRow)) := by
  have hnd : d.sides.Nodup := by
    simp only [uniformSchema, Bool.and_eq_true, decide_eq_true_eq,
      List.all_eq_true] at h
    exact h.1.1.1.2
  have hyp : ∀ k ∈ d.iterKeys, k.side = Side.HEMISIDE →
      (d.get k.subject Side.HEMISIDE k.activity k.activity_type).isSome = true ∧
      (d.get k.subject Side.HEALTHY k.activity k.activity_type).isSome = true := by
    intro k hk _
    unfold TheramiData.iterKeys at hk
    obtain ⟨s, hs, hk⟩ := List.mem_flatMap.mp hk
    obtain ⟨sd, hsd, hk⟩ := List.mem_flatMap.mp hk
    obtain ⟨a, ha, hk⟩ := List.mem_flatMap.mp hk
    obtain ⟨t, ht, hk⟩ := List.mem_map.mp hk
    subst hk
    exact ⟨get_isSome_of_uniform d h s Side.HEMISIDE a t hs h2 ha ht,
      get_isSome_of_uniform d h s Side.HEALTHY a t hs h3 ha ht⟩
  have hfilter : d.iterKeys.filter (fun k => decide (k.side = Side.HEMISIDE)) =
      d.subjects.flatMap fun s => d.activities.flatMap fun a =>
        d.activity_types.map fun t => (⟨s, Side.HEMISIDE, a, t⟩ : Keys) := by
    unfold TheramiData.iterKeys
    rw [filter_flatMap]
    refine flatMap_congr_mem _ _ _ (fun s _ => ?_)
    rw [filter_flatMap]
    rw [flatMap_eq_of_unique d.sides _ Side.HEMISIDE hnd h2 ?_]
    · rw [filter_flatMap]
      refine flatMap_congr_mem _ _ _ (fun a _ => ?_)
      refine filter_self_of_forall _ _ (fun x hx => ?_)
      obtain ⟨t, _, rfl⟩ := List.mem_map.mp hx
      simp
    · intro sd _ hne
      rw [filter_flatMap]
      refine flatMap_nil_of_forall _ _ (fun a _ => ?_)
      refine filter_nil_of_forall _ _ (fun x hx => ?_)
      obtain ⟨t, _, rfl⟩ := List.mem_map.mp hx
      simp [hne]
  rw [bimanual_statistics, bimanualLoop_eq d d.iterKeys hyp, hfilter]
  simp only [List.map_flatMap, List.map_map]
  rfl

theorem getMeanAc_dEx_hemi (t : ActivityType) :
    getMeanAc dEx "S1" Side.HEMISIDE "reach" t = 10 := by
  have hget : dEx.get "S1" Side.HEMISIDE "reach" t = some dataHemi := by
    cases t <;> rfl
  rw [getMeanAc, hget]
  show meanAc dataHemi = 10
  simp [meanAc, dataHemi, Data.activity_counts, applyMask, listMean]

theorem getMeanAc_dEx_healthy (t : ActivityType) :
    getMeanAc dEx "S1" Side.HEALTHY "reach" t = 5 := by
  have hget : dEx.get "S1" Side.HEALTHY "reach" t = some dataHealthy := by
    cases t <;> rfl
  rw [getMeanAc, hget]
  show meanAc dataHealthy = 5
  simp [meanAc, dataHealthy, Data.activity_counts, applyMask, listMean]

/-- The scenario of the spec: a HEMISIDE mean of 10 paired with a HEALTHY
mean of 5 gives a bimanual index of 2 after rounding to three decimals. -/
theorem round3_ratio_example : round3 ((10 : ℚ) / 5) = 2 := by
  have h : ((10 : ℚ) / 5) * 1000 = 2000 := by norm_num
  rw [round3, roundHalfEven, h]
  have hf : Rat.floor (2000 : ℚ) = 2000 := by
    rw [show Rat.floor (2000 : ℚ) = ⌊(2000 : ℚ)⌋ from rfl]
    norm_num
  rw [hf]
  norm_num

theorem C4_bimanual_export_witness :
    bimanual_statistics dEx =
      .ok [⟨"S1", "reach", "AVG", (2 : ℚ)⟩, ⟨"S1", "reach", "Traditionnel", 2⟩] := by
  rw [C4_bimanual_export dEx (by decide) (by decide) (by decide)]
  have hsubs : dEx.subjects = ["S1"] := rfl
  have hacts : dEx.activities = ["reach"] := rfl
  have htys : dEx.activity_types = [ActivityType.AVG, ActivityType.TRADITIONAL] := rfl
  simp [hsubs, hacts, htys, getMeanAc_dEx_hemi, getMeanAc_dEx_healthy,
    round3_ratio_example, ActivityType.graph_name]

/-! ### C5: the CSV writes -/

theorem alookup_append_of_ne (p q : FPath) (c : Csv) (hqp : q ≠ p) :
    ∀ (files : List (FPath × Csv)),
      alookup (files ++ [(p, c)]) q = alookup files q
  | [] => by
    rw [List.nil_append, alookup_cons_ne _ _ hqp]
  | (k, v) :: rest => by
    by_cases hqk : q = k
    · subst hqk
      rw [List.cons_append, alookup_cons_self, alookup_cons_self]
    · rw [List.cons_append, alookup_cons_ne _ _ hqk, alookup_cons_ne _ _ hqk]
      exact alookup_append_of_ne p q c hqp rest

theorem alookup_map_overwrite (p : FPath) (c : Csv) :
    ∀ (files : List (FPath × Csv)), p ∈ files.map Prod.fst →
      alookup (files.map (fun e => if e.1 = p then (p, c) else e)) p = some c
  | [], h => by simp at h
  | (k, v) :: rest, h => by
    rw [List.map_cons]
    by_cases hkp : (k, v).1 = p
    · rw [if_pos hkp]
      exact alookup_cons_self p c _
    · rw [if_neg hkp]
      have hpk : p ≠ (k, v).1 := fun hh => hkp hh.symm
      rw [alookup_cons_ne _ _ hpk]
      refine alookup_map_overwrite p c rest ?_
      rw [List.map_cons, List.mem_cons] at h
      exact h.resolve_left hpk

theorem alookup_map_overwrite_ne (p q : FPath) (c : Csv) (hqp : q ≠ p) :
    ∀ (files : List (FPath × Csv)),
      alookup (files.map (fun e => if e.1 = p then (p, c) else e)) q =
        alookup files q
  | [] => rfl
  | (k, v) :: rest => by
    rw [List.map_cons]
    by_cases hkp : (k, v).1 = p
    · rw [if_pos hkp]
      have hqk : q ≠ (k, v).1 := fun hh => hqp (hh.trans hkp)
      rw [alookup_cons_ne _ _ hqp, alookup_cons_ne _ _ hqk]
      exact alookup_map_overwrite_ne p q c hqp rest
    · rw [if_neg hkp]
      by_cases hqk : q = (k, v).1
      · subst hqk
        rw [alookup_cons_self, alookup_cons_self]
      · rw [alookup_cons_ne _ _ hqk, alookup_cons_ne _ _ hqk]
        exact alookup_map_overwrite_ne p q c hqp rest

theorem alookup_fsSet_self (files : List (FPath × Csv)) (p : FPath) (c : Csv) :
    alookup (fsSet files p c) p = some c := by
  rw [fsSet]
  split
  · exact alookup_map_overwrite p c files (by assumption)
  · induction files with
    | nil => exact alookup_cons_self p c []
    | cons e rest ih =>
      obtain ⟨k, v⟩ := e
      rename_i hmem
      have hpk : p ≠ (k, v).1 := by
        intro hh
        exact hmem (by rw [List.map_cons]; exact List.mem_cons.mpr (Or.inl hh))
      rw [List.cons_append, alookup_cons_ne _ _ hpk]
      exact ih (fun hc => hmem (by rw [List.map_cons]; exact List.mem_cons_of_mem _ hc))

theorem alookup_fsSet_ne (files : List (FPath × Csv)) (p q : FPath) (c : Csv)
    (hqp : q ≠ p) : alookup (fsSet files p c) q = alookup files q := by
  rw [fsSet]
  split
  · exact alookup_map_overwrite_ne p q c hqp files
  · exact alookup_append_of_ne p q c hqp files

theorem fsSet_allVal (files : List (FPath × Csv)) (p : FPath) (c : Csv) :
    ∀ e ∈ fsSet files p c, e.1 = p → e.2 = c := by
  rw [fsSet]
  split
  · intro e he hep
    obtain ⟨e0, _, heq⟩ := List.mem_map.mp he
    by_cases h0 : e0.1 = p
    · rw [if_pos h0] at heq
      rw [← heq]
    · rw [if_neg h0] at heq
      rw [← heq] at hep
      exact absurd hep h0
  · rename_i hmem
    intro e he hep
    rcases List.mem_append.mp he with hin | hsing
    · exact absurd (hep ▸ List.mem_map_of_mem Prod.fst hin) hmem
    · rw [List.mem_singleton.mp hsing]

theorem fsSet_allVal_preserve (files : List (FPath × Csv)) (p q : FPath)
    (c c2 : Csv) (hqp : q ≠ p) (h : ∀ e ∈ files, e.1 = p → e.2 = c) :
    ∀ e ∈ fsSet files q c2, e.1 = p → e.2 = c := by
  rw [fsSet]
  split
  · intro e he hep
    obtain ⟨e0, he0, heq⟩ := List.mem_map.mp he
    by_cases h0 : e0.1 = q
    · rw [if_pos h0] at heq
      rw [← heq] at hep
      exact absurd hep hqp
    · rw [if_neg h0] at heq
      exact h e (heq ▸ he0) hep
  · intro e he hep
    rcases List.mem_append.mp he with hin | hsing
    · exact h e hin hep
    · rw [List.mem_singleton.mp hsing] at hep
      exact absurd hep hqp

theorem fsSet_mem_keys (files : List (FPath × Csv)) (p : FPath) (c : Csv) :
    p ∈ (fsSet files p c).map Prod.fst := by
  rw [fsSet]
  split
  · rename_i hmem
    obtain ⟨e0, he0, heq⟩ := List.mem_map.mp hmem
    refine List.mem_map.mpr ⟨if e0.1 = p then (p, c) else e0, List.mem_map_of_mem _ he0, ?_⟩
    rw [if_pos heq]
  · refine List.mem_map.mpr ⟨(p, c), ?_, rfl⟩
    exact List.mem_append_right _ (List.mem_singleton.mpr rfl)

theorem fsSet_mem_keys_preserve (files : List (FPath × Csv)) (p q : FPath)
    (c2 : Csv) (h : p ∈ files.map Prod.fst) :
    p ∈ (fsSet files q c2).map Prod.fst := by
  rw [fsSet]
  split
  · obtain ⟨e0, he0, heq⟩ := List.mem_map.mp h
    by_cases h0 : e0.1 = q
    · refine List.mem_map.mpr ⟨(q, c2), ?_, ?_⟩
      · refine List.mem_map.mpr ⟨e0, he0, ?_⟩
        rw [if_pos h0]
      · rw [← heq, h0]
    · refine List.mem_map.mpr ⟨e0, ?_, heq⟩
      refine List.mem_map.mpr ⟨e0, he0, ?_⟩
      rw [if_neg h0]
  · rw [List.map_append]
    exact List.mem_append_left _ h

theorem fsSet_eq_self (files : List (FPath × Csv)) (p : FPath) (c : Csv)
    (hmem : p ∈ files.map Prod.fst)
    (hval : ∀ e ∈ files, e.1 = p → e.2 = c) : fsSet files p c = files := by
  rw [fsSet, if_pos hmem]
  refine Eq.trans (List.map_congr_left ?_) (List.map_id files)
  intro e he
  by_cases h0 : e.1 = p
  · rw [if_pos h0]
    have h2 := hval e he h0
    show (p, c) = e
    rw [← h0, ← h2]
  · rw [if_neg h0]
    rfl

theorem mem_mkdirParents_left (dirs : List FPath) (p a : FPath) (h : a ∈ dirs) :
    a ∈ mkdirParents dirs p :=
  List.mem_append_left _ h

theorem mem_mkdirParents_ancestor (dirs : List FPath) (p a : FPath)
    (h : a ∈ ancestors p) : a ∈ mkdirParents dirs p := by
  by_cases hd : a ∈ dirs
  · exact mem_mkdirParents_left dirs p a hd
  · refine List.mem_append_right _ ?_
    exact List.mem_filter.mpr ⟨h, by simp [hd]⟩

theorem mkdirParents_eq_self (dirs : List FPath) (p : FPath)
    (h : ∀ a ∈ ancestors p, a ∈ dirs) : mkdirParents dirs p = dirs := by
  rw [mkdirParents, filter_nil_of_forall _ _ ?_, List.append_nil]
  intro a ha
  exact decide_eq_false (not_not_intro (h a ha))

theorem self_mem_ancestors (p : FPath) (h : p ≠ []) : p ∈ ancestors p := by
  have hlen : 0 < p.length := List.length_pos.mpr h
  rw [ancestors]
  refine List.mem_map.mpr ⟨p.length - 1, List.mem_range.mpr (by omega), ?_⟩
  rw [Nat.sub_add_cancel hlen]
  exact List.take_length p

theorem summaryLoop_ok (env : NumEnv) (d : TheramiData) :
    ∀ (l : List Keys),
      (∀ k ∈ l, (d.get k.subject k.side k.activity k.activity_type).isSome = true) →
      ∃ rows, summaryLoop env d l = .ok rows
  | [], _ => ⟨[], rfl⟩
  | k :: rest, hyp => by
    obtain ⟨tp, htp⟩ :=
      Option.isSome_iff_exists.mp (hyp k (List.mem_cons_self k rest))
    obtain ⟨rows, hrows⟩ :=
      summaryLoop_ok env d rest (fun x hx => hyp x (List.mem_cons_of_mem _ hx))
    refine ⟨mkSummaryRow env k tp :: rows, ?_⟩
    rw [summaryLoop]
    simp only [getE, htp, hrows]

/-- C5: counterexample to the claim as stated. On a collection holding a
HEMISIDE entry but no HEALTHY counterpart, the export aborts with the fatal
key-lookup error instead of succeeding with both files. -/
theorem C5_counterexample :
    TheramiData.to_csv dHemiOnly numEnv0 ["results"] fs0 = .error .keyNotFound :=
  rfl

/-- C5 (amended): on a uniform-schema collection whose side set contains
HEALTHY whenever it contains HEMISIDE, the export succeeds, writes the
summary table and the bimanual table to their two distinct files under the
save folder, records the save folder among the created directories, and
running it again on the resulting filesystem changes nothing
(overwrite-on-rerun). -/
theorem C5_export_files (env : NumEnv) (d : TheramiData) (folder : FPath)
    (fs : FileSys) (h : uniformSchema d = true)
    (h2 : Side.HEMISIDE ∈ d.sides → Side.HEALTHY ∈ d.sides) (h3 : folder ≠ []) :
    ∃ fs2, d.to_csv env folder fs = .ok fs2 ∧
      (∃ srows, summary_statistics env d = .ok srows ∧
        alookup fs2.files (folder ++ ["summary_statistics.csv"]) =
          some (summaryCsv srows)) ∧
      (∃ brows, bimanual_statistics d = .ok brows ∧
        alookup fs2.files (folder ++ ["bimanual_statistics.csv"]) =
          some (bimanualCsv brows)) ∧
      folder ++ ["summary_statistics.csv"] ≠ folder ++ ["bimanual_statistics.csv"] ∧
      (∀ a ∈ ancestors folder, a ∈ fs2.dirs) ∧ folder ∈ fs2.dirs ∧
      d.to_csv env folder fs2 = .ok fs2 := by
  have hsumhyp : ∀ k ∈ d.iterKeys,
      (d.get k.subject k.side k.activity k.activity_type).isSome = true := by
    intro k hk
    unfold TheramiData.iterKeys at hk
    obtain ⟨s, hs, hk⟩ := List.mem_flatMap.mp hk
    obtain ⟨sd, hsd, hk⟩ := List.mem_flatMap.mp hk
    obtain ⟨a, ha, hk⟩ := List.mem_flatMap.mp hk
    obtain ⟨t, ht, hk⟩ := List.mem_map.mp hk
    subst hk
    exact get_isSome_of_uniform d h s sd a t hs hsd ha ht
  have hbimhyp : ∀ k ∈ d.iterKeys, k.side = Side.HEMISIDE →
      (d.get k.subject Side.HEMISIDE k.activity k.activity_type).isSome = true ∧
      (d.get k.subject Side.HEALTHY k.activity k.activity_type).isSome = true := by
    intro k hk hside
    unfold TheramiData.iterKeys at hk
    obtain ⟨s, hs, hk⟩ := List.mem_flatMap.mp hk
    obtain ⟨sd, hsd, hk⟩ := List.mem_flatMap.mp hk
    obtain ⟨a, ha, hk⟩ := List.mem_flatMap.mp hk
    obtain ⟨t, ht, hk⟩ := List.mem_map.mp hk
    subst hk
    have hsdh : sd = Side.HEMISIDE := hside
    subst hsdh
    have hhe : Side.HEALTHY ∈ d.sides := h2 hsd
    exact ⟨get_isSome_of_uniform d h s Side.HEMISIDE a t hs hsd ha ht,
      get_isSome_of_uniform d h s Side.HEALTHY a t hs hhe ha ht⟩
  obtain ⟨rows, hrows⟩ := summaryLoop_ok env d d.iterKeys hsumhyp
  have hsum : summary_statistics env d = .ok (rows.map roundSummary) := by
    rw [summary_statistics, hrows]
  have hloop := bimanualLoop_eq d d.iterKeys hbimhyp
  have hbim : bimanual_statistics d =
      .ok (((d.iterKeys.filter (fun k => decide (k.side = Side.HEMISIDE))).map
        (fun k => (⟨k.subject, k.activity, k.activity_type.graph_name,
          getMeanAc d k.subject Side.HEMISIDE k.activity k.activity_type /
            getMeanAc d k.subject Side.HEALTHY k.activity
              k.activity_type⟩ : BimanualRow))).map roundBimanual) := by
    rw [bimanual_statistics, hloop]
  set srows := rows.map roundSummary with hsrows
  set brows := ((d.iterKeys.filter (fun k => decide (k.side = Side.HEMISIDE))).map
    (fun k => (⟨k.subject, k.activity, k.activity_type.graph_name,
      getMeanAc d k.subject Side.HEMISIDE k.activity k.activity_type /
        getMeanAc d k.subject Side.HEALTHY k.activity
          k.activity_type⟩ : BimanualRow))).map roundBimanual with hbrows
  set sp := folder ++ ["summary_statistics.csv"] with hsp
  set bp := folder ++ ["bimanual_statistics.csv"] with hbp
  have hdl1 : sp.dropLast = folder := List.dropLast_concat
  have hdl2 : bp.dropLast = folder := List.dropLast_concat
  have hne : sp ≠ bp := by
    intro hcontra
    rw [hsp, hbp] at hcontra
    have := List.append_cancel_left hcontra
    simp at this
  set fsOut : FileSys :=
    ⟨fsSet (fsSet fs.files sp (summaryCsv srows)) bp (bimanualCsv brows),
      mkdirParents (mkdirParents fs.dirs folder) folder⟩ with hfsOut
  have hto : d.to_csv env folder fs = .ok fsOut := by
    rw [TheramiData.to_csv, Exporter.to_csv]
    simp only [hsum, hbim]
    rw [← hsp, ← hbp, hdl1, hdl2]
  have hanc : ∀ a ∈ ancestors folder, a ∈ fsOut.dirs := by
    intro a ha
    exact mem_mkdirParents_left _ folder a (mem_mkdirParents_ancestor _ folder a ha)
  refine ⟨fsOut, hto, ⟨srows, hsum, ?_⟩, ⟨brows, hbim, ?_⟩, hne, hanc, ?_, ?_⟩
  · rw [show fsOut.files =
      fsSet (fsSet fs.files sp (summaryCsv srows)) bp (bimanualCsv brows) from rfl]
    rw [alookup_fsSet_ne _ _ _ _ hne, alookup_fsSet_self]
  · rw [show fsOut.files =
      fsSet (fsSet fs.files sp (summaryCsv srows)) bp (bimanualCsv brows) from rfl]
    rw [alookup_fsSet_self]
  · exact hanc folder (self_mem_ancestors folder h3)
  · rw [TheramiData.to_csv, Exporter.to_csv]
    simp only [hsum, hbim]
    rw [← hsp, ← hbp, hdl1, hdl2]
    have hk1 : sp ∈ fsOut.files.map Prod.fst :=
      fsSet_mem_keys_preserve _ sp bp _ (fsSet_mem_keys fs.files sp (summaryCsv srows))
    have hv1 : ∀ e ∈ fsOut.files, e.1 = sp → e.2 = summaryCsv srows :=
      fsSet_allVal_preserve _ sp bp _ _ (fun hh => hne hh.symm)
        (fsSet_allVal fs.files sp (summaryCsv srows))
    have hstep1 : fsSet fsOut.files sp (summaryCsv srows) = fsOut.files :=
      fsSet_eq_self _ sp _ hk1 hv1
    have hk2 : bp ∈ fsOut.files.map Prod.fst := fsSet_mem_keys _ bp _
    have hv2 : ∀ e ∈ fsOut.files, e.1 = bp → e.2 = bimanualCsv brows :=
      fsSet_allVal _ bp _
    have hstep2 : fsSet fsOut.files bp (bimanualCsv brows) = fsOut.files :=
      fsSet_eq_self _ bp _ hk2 hv2
    have hdir1 : mkdirParents fsOut.dirs folder = fsOut.dirs :=
      mkdirParents_eq_self _ folder hanc
    rw [hstep1, hdir1, hstep2, hdir1]

theorem C5_export_files_witness :
    isOkExport (TheramiData.to_csv dEx numEnv0 ["results"] fs0) = true := by
  obtain ⟨fs2, hto, -⟩ :=
    C5_export_files numEnv0 dEx ["results"] fs0 (by decide) (by decide) (by decide)
  rw [hto]
  rfl

end Therami
